import Mathlib

/-!
Verification of the STUDENTS-API repository: a Go HTTP service with one
create-student endpoint. The development embeds, shallowly:

* `internal/utils/response/response.go` — the `Response` envelope,
  `WriteJson`, `GeneralError` and `ValidationError`;
* the create-student handler `student.New` — decode, validate, respond;
* the `main` server lifecycle — signal-driven graceful shutdown with a
  5-second drain deadline;
* the behaviour of `encoding/json`'s `Decoder.Decode` on the request body,
  as a fuel-indexed JSON parser over character lists (one value is read,
  the remainder of the stream is left untouched).

The `types.Student` struct and its `validate:"..."` tags live in
`internal/types`, which is not part of the sources here; the validation
rules are modelled from the specification (non-empty name, required and
syntactically valid email, required positive integer age) and marked as
such on each definition.
-/

/-! ## Embedding of internal/utils/response/response.go -/

/-- The `Response` struct of response.go: serialized with json keys
"status" and "error". -/
structure Response where
  Status : String
  Error : String
deriving DecidableEq, Repr

/-- Constant `StatusOk = "OK"` from response.go. -/
def StatusOk : String := "OK"

/-- Constant `StatusError = "Error"` from response.go. -/
def StatusError : String := "Error"

/-- One entry of a `validator.ValidationErrors` value, as consumed by
`ValidationError`: `field` is what `err.Field()` returns (the Go struct
field name) and `tag` is what `err.ActualTag()` returns (for example
"required" or "email"). -/
structure FieldError where
  field : String
  tag : String
deriving DecidableEq, Repr

/-- `GeneralError(err)` from response.go: an envelope with status
`StatusError` and the error's message. The Go `error` argument is
represented by its message string (`err.Error()`). -/
def GeneralError (errMsg : String) : Response :=
  ⟨StatusError, errMsg⟩

/-- The body of the `for _, err := range errs` loop of `ValidationError`
in response.go: switch on `err.ActualTag()`; the "required" case appends
"field <Name> is required field", the default case appends
"field <Name> is invalid". -/
def appendValidationMsg (acc : List String) (e : FieldError) : List String :=
  if e.tag = "required" then acc ++ ["field " ++ e.field ++ " is required field"]
  else acc ++ ["field " ++ e.field ++ " is invalid"]

/-- `ValidationError(errs)` from response.go: run the message-building
loop over the failures, then `strings.Join(errMsg, ", ")` into an
envelope with status `StatusError`. -/
def ValidationError (errs : List FieldError) : Response :=
  ⟨StatusError, String.intercalate ", " (errs.foldl appendValidationMsg [])⟩

/-- The per-failure sentence exactly as the specification describes it:
kind "required" gives "field <Name> is required field", any other kind
gives "field <Name> is invalid". -/
def validationMessage (e : FieldError) : String :=
  if e.tag = "required" then "field " ++ e.field ++ " is required field"
  else "field " ++ e.field ++ " is invalid"

/-- The Validation Mapper as the specification words it: map each failure
to its sentence, join with ", " preserving order, wrap with status Error. -/
def ValidationErrorSpec (errs : List FieldError) : Response :=
  ⟨StatusError, String.intercalate ", " (errs.map validationMessage)⟩

/-! ## Embedding of WriteJson -/

/-- One observable action `WriteJson` performs on the
`http.ResponseWriter`. -/
inductive WriteEvent where
  | setHeader (key value : String)
  | writeHeader (status : Nat)
  | writeBody (bytes : String)
deriving DecidableEq, Repr

/-- `WriteJson(w, status, data)` from response.go. The serialization of
`data` by `json.NewEncoder(w).Encode` is an external collaborator and is
passed in as its outcome `encoded` (serialized bytes, or an error).
The function sets the Content-Type header, then commits the status code
with `WriteHeader`, then encodes: on success the body is written and
`nil` is returned; on failure nothing more is written and the encode
error is returned to the caller. The first component is the ordered
trace of writer events, the second the returned error. -/
def WriteJson (status : Nat) (encoded : Except String String) :
    List WriteEvent × Option String :=
  match encoded with
  | Except.ok s =>
      ([WriteEvent.setHeader "Content-Type" "application/json",
        WriteEvent.writeHeader status,
        WriteEvent.writeBody s], none)
  | Except.error e =>
      ([WriteEvent.setHeader "Content-Type" "application/json",
        WriteEvent.writeHeader status], some e)

/-! ## Theorems about the response formatter -/

lemma foldl_appendValidationMsg (errs : List FieldError) (acc : List String) :
    errs.foldl appendValidationMsg acc = acc ++ errs.map validationMessage := by
  induction errs generalizing acc with
  | nil => simp
  | cons e rest ih =>
      simp only [List.foldl_cons, List.map_cons]
      rw [ih]
      unfold appendValidationMsg validationMessage
      by_cases h : e.tag = "required" <;> simp [h]

/-- C3: for every ordered sequence of field-level failures,
`ValidationError` produces "field <Name> is required field" for a failure
tagged "required" and "field <Name> is invalid" for any other tag, joins
the sentences with ", " preserving input order without reordering or
deduplication, and wraps them with status "Error" — that is, the loop of
response.go coincides with the specification's description. -/
theorem validationError_matches_spec (errs : List FieldError) :
    ValidationError errs = ValidationErrorSpec errs ∧
    (ValidationError errs).Status = "Error" := by
  constructor
  · unfold ValidationError ValidationErrorSpec
    rw [foldl_appendValidationMsg]
    simp
  · rfl

/-- C7: `WriteJson` first sets the Content-Type header to JSON, then
commits the status code, then writes the serialized body; when
serialization fails the error is returned to the caller, the status code
has already been committed (the `writeHeader` event is in the trace), and
no body is written. -/
theorem writeJson_order_and_failure (status : Nat) (s e : String) :
    WriteJson status (Except.ok s) =
      ([WriteEvent.setHeader "Content-Type" "application/json",
        WriteEvent.writeHeader status,
        WriteEvent.writeBody s], none) ∧
    WriteJson status (Except.error e) =
      ([WriteEvent.setHeader "Content-Type" "application/json",
        WriteEvent.writeHeader status], some e) ∧
    (WriteJson status (Except.error e)).2 = some e ∧
    WriteEvent.writeHeader status ∈ (WriteJson status (Except.error e)).1 ∧
    (∀ b, WriteEvent.writeBody b ∉ (WriteJson status (Except.error e)).1) := by
  refine ⟨rfl, rfl, rfl, ?_, ?_⟩
  · simp [WriteJson]
  · intro b
    simp [WriteJson]

/-- C9: every envelope built by `GeneralError` and every envelope built
by `ValidationError` has status exactly "Error", never "OK"; the empty
failure sequence yields an Error-status envelope with an empty error
string. -/
theorem envelopes_always_error (msg : String) (errs : List FieldError) :
    (GeneralError msg).Status = "Error" ∧
    (GeneralError msg).Status ≠ StatusOk ∧
    (ValidationError errs).Status = "Error" ∧
    (ValidationError errs).Status ≠ StatusOk ∧
    (ValidationError []).Status = "Error" ∧
    (ValidationError []).Error = "" := by
  refine ⟨rfl, ?_, rfl, ?_, rfl, rfl⟩ <;>
    simp [GeneralError, ValidationError, StatusOk, StatusError]

/-! ## Embedding of the request-body decoder

`student.New` decodes the body with `json.NewDecoder(r.Body).Decode`,
which reads the first JSON value of the stream and leaves anything after
it unread. The decoder is Go library behaviour, modelled here as a
fuel-indexed parser over the body's characters. The model covers the
value forms the endpoint can meet (objects, arrays, strings, integer
numbers, the three keyword literals, the simple escape sequences);
unsupported forms parse to `none`, which the handler maps to the same
400 decode-failure path the library error takes. -/

/-- A JSON value. -/
inductive Json where
  | null
  | bool (b : Bool)
  | num (n : Int)
  | str (s : String)
  | arr (elems : List Json)
  | obj (fields : List (String × Json))

/-- JSON insignificant whitespace. -/
def isWs (c : Char) : Bool :=
  c = ' ' || c = '\t' || c = '\n' || c = '\r'

/-- Drop leading whitespace. -/
def skipWs : List Char → List Char
  | [] => []
  | c :: cs => if isWs c then skipWs cs else c :: cs

/-- The simple one-character escape sequences of a JSON string. -/
def unescapeChar (c : Char) : Option Char :=
  if c = '"' then some '"'
  else if c = '\\' then some '\\'
  else if c = '/' then some '/'
  else if c = 'n' then some '\n'
  else if c = 't' then some '\t'
  else if c = 'r' then some '\r'
  else none

/-- Parse the characters of a JSON string after its opening quote, up to
and including the closing quote; returns the decoded characters and the
rest of the stream. -/
def parseStringBody : List Char → Option (List Char × List Char)
  | [] => none
  | c :: rest =>
    if c = '"' then some ([], rest)
    else if c = '\\' then
      match rest with
      | [] => none
      | e :: rest2 =>
        match unescapeChar e with
        | some u =>
          match parseStringBody rest2 with
          | some p => some (u :: p.1, p.2)
          | none => none
        | none => none
    else
      match parseStringBody rest with
      | some p => some (c :: p.1, p.2)
      | none => none

/-- Consume a run of decimal digits, accumulating their value. -/
def parseDigits : List Char → Nat → Nat × List Char
  | [], acc => (acc, [])
  | c :: cs, acc =>
    if c.isDigit then parseDigits cs (10 * acc + (c.toNat - 48))
    else (acc, c :: cs)

/-- Match an expected literal suffix character by character. -/
def stripLit : List Char → List Char → Option (List Char)
  | [], cs => some cs
  | _ :: _, [] => none
  | l :: ls, c :: cs => if c = l then stripLit ls cs else none

mutual

/-- Parse one JSON value; returns the value and the unread rest. -/
def parseVal : Nat → List Char → Option (Json × List Char)
  | 0, _ => none
  | fuel + 1, cs =>
    match skipWs cs with
    | [] => none
    | c :: rest =>
      if c = '{' then
        match skipWs rest with
        | [] => none
        | c2 :: rest2 =>
          if c2 = '}' then some (Json.obj [], rest2)
          else parseMembers fuel (c2 :: rest2) []
      else if c = '[' then
        match skipWs rest with
        | [] => none
        | c2 :: rest2 =>
          if c2 = ']' then some (Json.arr [], rest2)
          else parseElems fuel (c2 :: rest2) []
      else if c = '"' then
        match parseStringBody rest with
        | some p => some (Json.str ⟨p.1⟩, p.2)
        | none => none
      else if c = '-' then
        match rest with
        | [] => none
        | d :: rest2 =>
          if d.isDigit then
            let p := parseDigits rest2 (d.toNat - 48)
            some (Json.num (-(p.1 : Int)), p.2)
          else none
      else if c.isDigit then
        let p := parseDigits rest (c.toNat - 48)
        some (Json.num (p.1 : Int), p.2)
      else if c = 't' then
        match stripLit ['r', 'u', 'e'] rest with
        | some rest2 => some (Json.bool true, rest2)
        | none => none
      else if c = 'f' then
        match stripLit ['a', 'l', 's', 'e'] rest with
        | some rest2 => some (Json.bool false, rest2)
        | none => none
      else if c = 'n' then
        match stripLit ['u', 'l', 'l'] rest with
        | some rest2 => some (Json.null, rest2)
        | none => none
      else none

/-- Parse the members of a JSON object after its opening brace (first
member next), accumulating key-value pairs in input order. -/
def parseMembers : Nat → List Char → List (String × Json) →
    Option (Json × List Char)
  | 0, _, _ => none
  | fuel + 1, cs, acc =>
    match skipWs cs with
    | [] => none
    | c :: rest =>
      if c = '"' then
        match parseStringBody rest with
        | none => none
        | some kp =>
          match skipWs kp.2 with
          | [] => none
          | c2 :: rest3 =>
            if c2 = ':' then
              match parseVal fuel rest3 with
              | none => none
              | some vp =>
                match skipWs vp.2 with
                | [] => none
                | c3 :: rest5 =>
                  if c3 = ',' then
                    parseMembers fuel rest5 (acc ++ [(⟨kp.1⟩, vp.1)])
                  else if c3 = '}' then
                    some (Json.obj (acc ++ [(⟨kp.1⟩, vp.1)]), rest5)
                  else none
            else none
      else none

/-- Parse the elements of a JSON array after its opening bracket (first
element next), accumulating elements in input order. -/
def parseElems : Nat → List Char → List Json → Option (Json × List Char)
  | 0, _, _ => none
  | fuel + 1, cs, acc =>
    match parseVal fuel cs with
    | none => none
    | some vp =>
      match skipWs vp.2 with
      | [] => none
      | c :: rest =>
        if c = ',' then parseElems fuel rest (acc ++ [vp.1])
        else if c = ']' then some (Json.arr (acc ++ [vp.1]), rest)
        else none

end

/-! ## The Student struct and its validation

`types.Student` and its `validate` tags are declared in
`internal/types`, which is not among the sources; the shape and the
constraints are modelled from the specification. -/

/-- Modelled from the spec: the `types.Student` struct filled by the
decoder — `name` (string), `email` (string), `age` (integer), with json
keys as in the external-interface section of the specification. Missing
keys leave the Go zero values: empty strings and age 0. -/
structure Student where
  Name : String
  Email : String
  Age : Int
deriving DecidableEq, Repr

/-- The Go zero value of `types.Student`, the state before any key of
the decoded object is assigned. -/
def zeroStudent : Student := Student.mk "" "" 0

/-- Modelled from the spec: assignment of one decoded object member into
the struct, as `encoding/json` unmarshalling does — a matching key with
a value of the wrong type is an error, an unknown key is ignored, a
later duplicate key overwrites. -/
def setField (s : Student) (k : String) (v : Json) : Except String Student :=
  if k = "name" then
    match v with
    | Json.str x => Except.ok (Student.mk x s.Email s.Age)
    | _ => Except.error "json: cannot unmarshal value into field name"
  else if k = "email" then
    match v with
    | Json.str x => Except.ok (Student.mk s.Name x s.Age)
    | _ => Except.error "json: cannot unmarshal value into field email"
  else if k = "age" then
    match v with
    | Json.num n => Except.ok (Student.mk s.Name s.Email n)
    | _ => Except.error "json: cannot unmarshal value into field age"
  else Except.ok s

/-- Fold the decoded object members into the struct in order. -/
def assignFields : Student → List (String × Json) → Except String Student
  | s, [] => Except.ok s
  | s, kv :: rest =>
    match setField s kv.1 kv.2 with
    | Except.ok s2 => assignFields s2 rest
    | Except.error e => Except.error e

/-- Unmarshal a decoded JSON value into `types.Student`: only an object
can fill a struct, any other value is a type error. -/
def jsonToStudent : Json → Except String Student
  | Json.obj fields => assignFields zeroStudent fields
  | _ => Except.error "json: cannot unmarshal value into Go value of type types.Student"

/-- Outcome of `json.NewDecoder(r.Body).Decode(&student)` as the handler
distinguishes it: `eof` is `io.EOF` (no value in the stream), `fail` is
any other decode error with its message, `ok` is a filled struct. -/
inductive DecodeOutcome where
  | eof
  | fail (msg : String)
  | ok (s : Student)
deriving DecidableEq, Repr

/-- The decode step on the body's characters: an exhausted stream is
`io.EOF`; otherwise the first JSON value is read (fuel one past the
stream length always suffices, each recursive step consuming at least
one character) and unmarshalled; everything after the first value is
left unread. -/
def decodeChars (cs : List Char) : DecodeOutcome :=
  match skipWs cs with
  | [] => DecodeOutcome.eof
  | c :: rest =>
    match parseVal ((c :: rest).length + 1) (c :: rest) with
    | none => DecodeOutcome.fail "invalid JSON document"
    | some vp =>
      match jsonToStudent vp.1 with
      | Except.ok s => DecodeOutcome.ok s
      | Except.error e => DecodeOutcome.fail e

/-- Decode a request body, as the handler's call to `Decode` does. -/
def decodeStudent (body : String) : DecodeOutcome :=
  decodeChars body.toList

/-! ## Validation (modelled from the spec) and the handler -/

/-- Split a character list at its first "@", when there is one. -/
def breakAtAt : List Char → Option (List Char × List Char)
  | [] => none
  | c :: cs =>
    if c = '@' then some ([], cs)
    else
      match breakAtAt cs with
      | some p => some (c :: p.1, p.2)
      | none => none

/-- Modelled from the spec: the "syntactically valid email" constraint
carried by the email field's validation tag — exactly one "@", a
non-empty local part, and a non-empty domain that contains a dot but
neither starts nor ends with one. -/
def validEmail (s : String) : Bool :=
  match breakAtAt s.toList with
  | none => false
  | some p =>
    match p.1, p.2 with
    | [], _ => false
    | _, [] => false
    | _ :: _, d :: ds =>
      !((d :: ds).contains '@') && (d :: ds).contains '.' &&
      !(d = '.') && !((d :: ds).reverse.head? = some '.')

/-- Modelled from the spec: `validator.New().Struct(student)` over the
tags of `types.Student` — fields checked in declaration order name,
email, age; a zero-valued field fails "required"; a present but
malformed email fails the "email" format tag; a non-positive age fails
the positivity tag "gt". One failure is reported per failing field. -/
def validateStudent (s : Student) : List FieldError :=
  (if s.Name = "" then [FieldError.mk "Name" "required"] else []) ++
  (if s.Email = "" then [FieldError.mk "Email" "required"]
   else if validEmail s.Email = false then [FieldError.mk "Email" "email"]
   else []) ++
  (if s.Age = 0 then [FieldError.mk "Age" "required"]
   else if s.Age < 0 then [FieldError.mk "Age" "gt"] else [])

/-- The success payload of the handler, the Go literal
`map[string]string` with single key "Success" and value "ok". -/
def successBody : Json := Json.obj [("Success", Json.str "ok")]

/-- The JSON value a `Response` envelope serializes to: keys "status"
and "error" from the struct's json tags. -/
def responseJson (r : Response) : Json :=
  Json.obj [("status", Json.str r.Status), ("error", Json.str r.Error)]

/-- The handler returned by `student.New`: decode the body; on `io.EOF`
answer 400 with `GeneralError("empty body")`; on any other decode error
answer 400 with `GeneralError(err)`; on a validation failure answer 400
with `ValidationError(validateErrs)`; otherwise answer 201 with the
success payload. The result is the ordered list of `WriteJson` calls
(status code and payload at the JSON value level) together with the
student store after the request — the handler performs no storage
operation, which the unchanged store makes explicit. -/
def studentNew (store : List Student) (body : String) :
    List (Nat × Json) × List Student :=
  match decodeStudent body with
  | DecodeOutcome.eof =>
      ([(400, responseJson (GeneralError "empty body"))], store)
  | DecodeOutcome.fail msg =>
      ([(400, responseJson (GeneralError msg))], store)
  | DecodeOutcome.ok student =>
      let errs := validateStudent student
      if errs = [] then ([(201, successBody)], store)
      else ([(400, responseJson (ValidationError errs))], store)


/-! ## Theorems about the create-student handler -/

/-- C1: every request body that decodes into a student satisfying all
field constraints (non-empty name, syntactically valid email, positive
age) is answered with exactly one write: HTTP 201 with the JSON object
holding the single pair "Success": "ok"; the student store is returned
unchanged — no record is stored. -/
theorem createStudent_valid_201 (store : List Student) (body : String)
    (s : Student)
    (hdec : decodeStudent body = DecodeOutcome.ok s)
    (hname : s.Name ≠ "")
    (hemail : validEmail s.Email = true)
    (hage : 0 < s.Age) :
    studentNew store body = ([(201, successBody)], store) := by
  have hemail0 : s.Email ≠ "" := by
    intro h
    rw [h] at hemail
    exact absurd hemail (by decide)
  have hv : validateStudent s = [] := by
    unfold validateStudent
    rw [if_neg hname, if_neg hemail0, if_neg (by simp [hemail]),
      if_neg (by omega), if_neg (by omega)]
    simp
  unfold studentNew
  rw [hdec]
  simp [hv]

/-- Witness for C1 at a concrete valid body. -/
theorem createStudent_valid_201_holds :
    decodeStudent "\x7b\"name\":\"bob\",\"email\":\"bob@mail.com\",\"age\":21\x7d" =
      DecodeOutcome.ok (Student.mk "bob" "bob@mail.com" 21) ∧
    (Student.mk "bob" "bob@mail.com" 21).Name ≠ "" ∧
    validEmail (Student.mk "bob" "bob@mail.com" 21).Email = true ∧
    (0 : Int) < (Student.mk "bob" "bob@mail.com" 21).Age ∧
    studentNew [] "\x7b\"name\":\"bob\",\"email\":\"bob@mail.com\",\"age\":21\x7d" =
      ([(201, successBody)], []) :=
  ⟨by decide, by decide, by decide, by decide,
    createStudent_valid_201 [] _ (Student.mk "bob" "bob@mail.com" 21)
      (by decide) (by decide) (by decide) (by decide)⟩

/-- C4: an empty request body decodes to `io.EOF`, and the handler
answers with exactly one write: HTTP 400 with an error envelope whose
status is "Error" and whose error message is exactly "empty body". -/
theorem createStudent_empty_body_400 (store : List Student) :
    studentNew store "" =
      ([(400, responseJson (GeneralError "empty body"))], store) ∧
    (GeneralError "empty body").Status = "Error" ∧
    (GeneralError "empty body").Error = "empty body" := by
  exact ⟨rfl, rfl, rfl⟩

/-- C2: when a decoded student fails several fields at once — here a
missing (empty) name together with a present but invalid email, age
valid — the handler answers 400 with an envelope listing one message per
failing field, joined by ", ", in struct field-declaration order: first
Name, then Email. -/
theorem createStudent_multi_field_errors (store : List Student)
    (body : String) (s : Student)
    (hdec : decodeStudent body = DecodeOutcome.ok s)
    (hname : s.Name = "")
    (hemail0 : s.Email ≠ "")
    (hemail : validEmail s.Email = false)
    (hage : 0 < s.Age) :
    studentNew store body =
      ([(400, responseJson (Response.mk "Error"
        "field Name is required field, field Email is invalid"))], store) := by
  have hv : validateStudent s =
      [FieldError.mk "Name" "required", FieldError.mk "Email" "email"] := by
    unfold validateStudent
    rw [if_pos hname, if_neg hemail0, if_pos hemail,
      if_neg (by omega), if_neg (by omega)]
    rfl
  have hve : ValidationError
      [FieldError.mk "Name" "required", FieldError.mk "Email" "email"] =
      Response.mk "Error"
        "field Name is required field, field Email is invalid" := by decide
  unfold studentNew
  rw [hdec]
  simp [hv, hve]

/-- Witness for C2 at a concrete body failing name and email together. -/
theorem createStudent_multi_field_errors_holds :
    decodeStudent "\x7b\"name\":\"\",\"email\":\"not-an-email\",\"age\":21\x7d" =
      DecodeOutcome.ok (Student.mk "" "not-an-email" 21) ∧
    (Student.mk "" "not-an-email" 21).Name = "" ∧
    (Student.mk "" "not-an-email" 21).Email ≠ "" ∧
    validEmail (Student.mk "" "not-an-email" 21).Email = false ∧
    (0 : Int) < (Student.mk "" "not-an-email" 21).Age ∧
    studentNew [] "\x7b\"name\":\"\",\"email\":\"not-an-email\",\"age\":21\x7d" =
      ([(400, responseJson (Response.mk "Error"
        "field Name is required field, field Email is invalid"))], []) :=
  ⟨by decide, by decide, by decide, by decide, by decide,
    createStudent_multi_field_errors [] _ (Student.mk "" "not-an-email" 21)
      (by decide) (by decide) (by decide) (by decide) (by decide)⟩

/-- C5: a body that decodes successfully but whose age is not positive
(zero or negative) fails validation, and the handler answers 400 with
the validation envelope. -/
theorem createStudent_nonpositive_age_400 (store : List Student)
    (body : String) (s : Student)
    (hdec : decodeStudent body = DecodeOutcome.ok s)
    (hage : s.Age ≤ 0) :
    validateStudent s ≠ [] ∧
    studentNew store body =
      ([(400, responseJson (ValidationError (validateStudent s)))], store) := by
  have hv : validateStudent s ≠ [] := by
    by_cases h0 : s.Age = 0
    · simp [validateStudent, h0]
    · have hlt : s.Age < 0 := by omega
      simp [validateStudent, h0, hlt]
  refine ⟨hv, ?_⟩
  unfold studentNew
  rw [hdec]
  simp [hv]

/-- Witness for C5 at a concrete body with age 0. -/
theorem createStudent_nonpositive_age_400_holds :
    decodeStudent "\x7b\"name\":\"bob\",\"email\":\"bob@mail.com\",\"age\":0\x7d" =
      DecodeOutcome.ok (Student.mk "bob" "bob@mail.com" 0) ∧
    (Student.mk "bob" "bob@mail.com" 0).Age ≤ 0 ∧
    (validateStudent (Student.mk "bob" "bob@mail.com" 0) ≠ [] ∧
      studentNew [] "\x7b\"name\":\"bob\",\"email\":\"bob@mail.com\",\"age\":0\x7d" =
        ([(400, responseJson (ValidationError
          (validateStudent (Student.mk "bob" "bob@mail.com" 0))))], [])) :=
  ⟨by decide, by decide,
    createStudent_nonpositive_age_400 [] _ (Student.mk "bob" "bob@mail.com" 0)
      (by decide) (by decide)⟩

/-- C6: for every store and every request body the handler returns
normally with exactly one response write — malformed input, validation
failure and success all end in a single write, never in an abort — and
the store is untouched. -/
theorem handler_single_write (store : List Student) (body : String) :
    (studentNew store body).1.length = 1 ∧
    (studentNew store body).2 = store := by
  unfold studentNew
  cases hdec : decodeStudent body with
  | eof => simp
  | fail msg => simp
  | ok s =>
      by_cases hv : validateStudent s = [] <;> simp [hv]

/-! ## Embedding of the server lifecycle (main)

`main` registers the route, serves from a separate goroutine, blocks on
a one-slot signal channel, and on receipt of a termination signal calls
`server.Shutdown` under a context carrying a 5-second timeout; a
shutdown error is logged, and main runs to its end — the process
terminates — in either case. The drain semantics of `http.Server`
(stop accepting new requests, let in-flight work finish until the
context deadline) is Go library behaviour, modelled from the spec. -/

/-- The lifecycle states of the hosting server. -/
inductive LifecycleState where
  | serving
  | draining
  | stopped
deriving DecidableEq, Repr

/-- The termination signals registered on the `done` channel:
`os.Interrupt`, `syscall.SIGINT`, `syscall.SIGTERM`. -/
inductive OsSignal where
  | interrupt
  | sigint
  | sigterm
deriving DecidableEq, Repr

/-- The drain deadline main passes to `context.WithTimeout`:
`5 * time.Second`, in seconds. -/
def shutdownTimeoutSeconds : Nat := 5

/-- Modelled from the spec: during the drain phase entered by
`server.Shutdown` no new requests are accepted; only the serving state
accepts them. -/
def acceptsNewRequests : LifecycleState → Bool
  | LifecycleState.serving => true
  | _ => false

/-- Receipt of any registered termination signal on the `done` channel
unblocks the main path and begins the drain phase. -/
def signalTransition : LifecycleState → OsSignal → LifecycleState
  | LifecycleState.serving, _ => LifecycleState.draining
  | st, _ => st

/-- Modelled from the spec: the deadline-bound `server.Shutdown(ctx)`
call — no error when in-flight work completes within the deadline,
otherwise the context's deadline error is returned. `inflightSeconds`
is the time the in-flight work needs. -/
def shutdownCall (deadline inflightSeconds : Nat) : Option String :=
  if inflightSeconds ≤ deadline then none else some "context deadline exceeded"

/-- What main reports after `<-done` unblocks. -/
structure ShutdownReport where
  drainDeadline : Nat
  errorLogged : Bool
  terminated : Bool
deriving DecidableEq, Repr

/-- Steps 9 through 12 of main: after the signal, build the 5-second
context, call Shutdown, log its error when there is one, and fall off
the end of main — terminating the process — in either case. -/
def mainShutdown (inflightSeconds : Nat) : ShutdownReport :=
  match shutdownCall shutdownTimeoutSeconds inflightSeconds with
  | some _ => ShutdownReport.mk shutdownTimeoutSeconds true true
  | none => ShutdownReport.mk shutdownTimeoutSeconds false true

/-- C8: any registered termination signal moves the server from serving
into a drain phase during which no new requests are accepted; the drain
deadline is 5 seconds; for every in-flight duration the process
terminates; and the shutdown error is logged exactly when the work
exceeds the deadline. -/
theorem graceful_shutdown_bounded (sig : OsSignal) (t : Nat) :
    signalTransition LifecycleState.serving sig = LifecycleState.draining ∧
    acceptsNewRequests LifecycleState.draining = false ∧
    (mainShutdown t).drainDeadline = 5 ∧
    (mainShutdown t).terminated = true ∧
    ((mainShutdown t).errorLogged = true ↔ 5 < t) := by
  refine ⟨rfl, rfl, ?_, ?_, ?_⟩
  all_goals
    unfold mainShutdown shutdownCall shutdownTimeoutSeconds
    by_cases h : t ≤ 5 <;> simp [h] <;> omega

/-! ## The decoder reads only the first JSON value

A canonical whitespace-free serialization of a student object, followed
by arbitrary trailing bytes; the parse consumes exactly the object and
returns the trailing bytes unread. -/

/-- The numeric value of a run of decimal digits. -/
def digitsVal (ds : List Char) : Nat :=
  ds.foldl (fun a c => 10 * a + (c.toNat - 48)) 0

/-- The canonical serialization of a student object: keys name, email,
age in order, no whitespace, age as a digit run. -/
def mkStudentBody (N E D : List Char) : List Char :=
  '{' :: '"' :: 'n' :: 'a' :: 'm' :: 'e' :: '"' :: ':' :: '"' ::
    (N ++ ('"' :: ',' :: '"' :: 'e' :: 'm' :: 'a' :: 'i' :: 'l' :: '"' :: ':' :: '"' ::
      (E ++ ('"' :: ',' :: '"' :: 'a' :: 'g' :: 'e' :: '"' :: ':' ::
        (D ++ ('}' :: []))))))

/-- The JSON value `mkStudentBody` denotes. -/
def studentJson (N E D : List Char) : Json :=
  Json.obj [(String.mk ['n', 'a', 'm', 'e'], Json.str (String.mk N)),
    (String.mk ['e', 'm', 'a', 'i', 'l'], Json.str (String.mk E)),
    (String.mk ['a', 'g', 'e'], Json.num (digitsVal D : Int))]

lemma parseStringBody_plain (cs rest : List Char)
    (h : ∀ c ∈ cs, c ≠ '"' ∧ c ≠ '\\') :
    parseStringBody (cs ++ '"' :: rest) = some (cs, rest) := by
  induction cs with
  | nil =>
      rw [List.nil_append, parseStringBody.eq_def]
      simp
  | cons c cs ih =>
      obtain ⟨h1, h2⟩ := h c (by simp)
      have ih2 := ih (fun d hd => h d (by simp [hd]))
      rw [List.cons_append, parseStringBody.eq_def]
      simp [h1, h2, ih2]

lemma parseDigits_plain (ds : List Char) (acc : Nat) (c : Char)
    (rest : List Char)
    (hds : ∀ d ∈ ds, d.isDigit = true) (hc : c.isDigit = false) :
    parseDigits (ds ++ c :: rest) acc =
      (ds.foldl (fun a d => 10 * a + (d.toNat - 48)) acc, c :: rest) := by
  induction ds generalizing acc with
  | nil => simp [parseDigits, hc]
  | cons d ds ih =>
      have hd := hds d (by simp)
      simp only [List.cons_append, parseDigits, hd, if_true, List.foldl_cons]
      exact ih _ (fun e he => hds e (by simp [he]))

lemma digit_ne (d c : Char) (hd : d.isDigit = true) (hc : c.isDigit = false) :
    d ≠ c := by
  intro h
  rw [h, hc] at hd
  exact Bool.false_ne_true hd

lemma parseMembers_age (f : Nat) (D T : List Char)
    (acc : List (String × Json))
    (hD1 : D ≠ []) (hD : ∀ c ∈ D, c.isDigit = true) :
    parseMembers (f + 1 + 1)
      ('"' :: 'a' :: 'g' :: 'e' :: '"' :: ':' :: (D ++ '}' :: T)) acc =
      some (Json.obj
        (acc ++ [(String.mk ['a', 'g', 'e'], Json.num (digitsVal D : Int))]),
        T) := by
  cases D with
  | nil => exact absurd rfl hD1
  | cons d D' =>
      have hd : d.isDigit = true := hD d (by simp)
      have h1 : d ≠ '{' := digit_ne d '{' hd (by decide)
      have h2 : d ≠ '[' := digit_ne d '[' hd (by decide)
      have h3 : d ≠ '"' := digit_ne d '"' hd (by decide)
      have h4 : d ≠ '-' := digit_ne d '-' hd (by decide)
      have h5 : d ≠ ' ' := digit_ne d ' ' hd (by decide)
      have h6 : d ≠ '\t' := digit_ne d '\t' hd (by decide)
      have h7 : d ≠ '\n' := digit_ne d '\n' hd (by decide)
      have h8 : d ≠ '\r' := digit_ne d '\r' hd (by decide)
      have hkey := parseStringBody_plain ['a', 'g', 'e']
        (':' :: (d :: D' ++ '}' :: T)) (by decide)
      simp only [List.cons_append, List.nil_append] at hkey
      have hdig := parseDigits_plain D' (d.toNat - 48) '}' T
        (fun e he => hD e (by simp [he])) (by decide)
      simp [parseMembers, parseVal, skipWs, isWs, hkey, hdig,
        h1, h2, h3, h4, h5, h6, h7, h8, hd, digitsVal]

lemma parseVal_string (g : Nat) (S rest : List Char)
    (hS : ∀ c ∈ S, c ≠ '"' ∧ c ≠ '\\') :
    parseVal (g + 1) ('"' :: (S ++ '"' :: rest)) =
      some (Json.str (String.mk S), rest) := by
  have h := parseStringBody_plain S rest hS
  simp [parseVal, skipWs, isWs, h]

lemma parseMembers_step (g : Nat) (K rest1 rest2 T : List Char) (v : Json)
    (acc fields : List (String × Json))
    (hK : ∀ c ∈ K, c ≠ '"' ∧ c ≠ '\\')
    (hval : parseVal g rest1 = some (v, ',' :: rest2))
    (hrec : parseMembers g rest2 (acc ++ [(String.mk K, v)]) =
      some (Json.obj fields, T)) :
    parseMembers (g + 1) ('"' :: (K ++ '"' :: ':' :: rest1)) acc =
      some (Json.obj fields, T) := by
  have hkey := parseStringBody_plain K (':' :: rest1) hK
  simp [parseMembers, skipWs, isWs, hkey, hval, hrec]

lemma parseVal_mkStudentBody (m : Nat) (N E D T : List Char)
    (hN : ∀ c ∈ N, c ≠ '"' ∧ c ≠ '\\')
    (hE : ∀ c ∈ E, c ≠ '"' ∧ c ≠ '\\')
    (hD1 : D ≠ []) (hD : ∀ c ∈ D, c.isDigit = true) :
    parseVal (m + 1 + 1 + 1 + 1 + 1) (mkStudentBody N E D ++ T) =
      some (studentJson N E D, T) := by
  have hage := parseMembers_age m D T
      [(String.mk ['n', 'a', 'm', 'e'], Json.str (String.mk N)),
       (String.mk ['e', 'm', 'a', 'i', 'l'], Json.str (String.mk E))] hD1 hD
  have hEval := parseVal_string (m + 1) E
      (',' :: '"' :: 'a' :: 'g' :: 'e' :: '"' :: ':' :: (D ++ '}' :: T)) hE
  have hemail := parseMembers_step (m + 1 + 1) ['e', 'm', 'a', 'i', 'l']
      ('"' :: (E ++ '"' :: ',' :: '"' :: 'a' :: 'g' :: 'e' :: '"' :: ':' ::
        (D ++ '}' :: T)))
      ('"' :: 'a' :: 'g' :: 'e' :: '"' :: ':' :: (D ++ '}' :: T))
      T (Json.str (String.mk E))
      [(String.mk ['n', 'a', 'm', 'e'], Json.str (String.mk N))]
      ([(String.mk ['n', 'a', 'm', 'e'], Json.str (String.mk N)),
        (String.mk ['e', 'm', 'a', 'i', 'l'], Json.str (String.mk E))] ++
        [(String.mk ['a', 'g', 'e'], Json.num (digitsVal D : Int))])
      (by decide) hEval hage
  have hNval := parseVal_string (m + 1 + 1) N
      (',' :: '"' :: 'e' :: 'm' :: 'a' :: 'i' :: 'l' :: '"' :: ':' :: '"' ::
        (E ++ '"' :: ',' :: '"' :: 'a' :: 'g' :: 'e' :: '"' :: ':' ::
          (D ++ '}' :: T))) hN
  have hname := parseMembers_step (m + 1 + 1 + 1) ['n', 'a', 'm', 'e']
      ('"' :: (N ++ '"' :: ',' :: '"' :: 'e' :: 'm' :: 'a' :: 'i' :: 'l' ::
        '"' :: ':' :: '"' :: (E ++ '"' :: ',' :: '"' :: 'a' :: 'g' :: 'e' ::
          '"' :: ':' :: (D ++ '}' :: T))))
      ('"' :: 'e' :: 'm' :: 'a' :: 'i' :: 'l' :: '"' :: ':' :: '"' ::
        (E ++ '"' :: ',' :: '"' :: 'a' :: 'g' :: 'e' :: '"' :: ':' ::
          (D ++ '}' :: T)))
      T (Json.str (String.mk N)) []
      ([(String.mk ['n', 'a', 'm', 'e'], Json.str (String.mk N)),
        (String.mk ['e', 'm', 'a', 'i', 'l'], Json.str (String.mk E))] ++
        [(String.mk ['a', 'g', 'e'], Json.num (digitsVal D : Int))])
      (by decide) hNval hemail
  simp only [List.cons_append, List.nil_append] at hname
  simp only [mkStudentBody, List.cons_append, List.nil_append,
    List.append_assoc]
  simp [parseVal, skipWs, isWs, hname, studentJson]

lemma parseVal_mkStudentBody_ge (f : Nat) (N E D T : List Char)
    (hf : 5 ≤ f)
    (hN : ∀ c ∈ N, c ≠ '"' ∧ c ≠ '\\')
    (hE : ∀ c ∈ E, c ≠ '"' ∧ c ≠ '\\')
    (hD1 : D ≠ []) (hD : ∀ c ∈ D, c.isDigit = true) :
    parseVal f (mkStudentBody N E D ++ T) = some (studentJson N E D, T) := by
  obtain ⟨m, rfl⟩ : ∃ m, f = m + 1 + 1 + 1 + 1 + 1 := ⟨f - 5, by omega⟩
  exact parseVal_mkStudentBody m N E D T hN hE hD1 hD

lemma decodeChars_cons (c : Char) (rest : List Char) (hc : isWs c = false) :
    decodeChars (c :: rest) =
      match parseVal ((c :: rest).length + 1) (c :: rest) with
      | none => DecodeOutcome.fail "invalid JSON document"
      | some vp =>
        match jsonToStudent vp.1 with
        | Except.ok s => DecodeOutcome.ok s
        | Except.error e => DecodeOutcome.fail e := by
  unfold decodeChars
  simp [skipWs, hc]

lemma decodeChars_mkStudentBody (N E D T : List Char)
    (hN : ∀ c ∈ N, c ≠ '"' ∧ c ≠ '\\')
    (hE : ∀ c ∈ E, c ≠ '"' ∧ c ≠ '\\')
    (hD1 : D ≠ []) (hD : ∀ c ∈ D, c.isDigit = true) :
    decodeChars (mkStudentBody N E D ++ T) =
      DecodeOutcome.ok
        (Student.mk (String.mk N) (String.mk E) (digitsVal D : Int)) := by
  obtain ⟨rest0, hrest⟩ : ∃ r, mkStudentBody N E D ++ T = '{' :: r :=
    ⟨(mkStudentBody N E D ++ T).tail, by simp [mkStudentBody]⟩
  have hf : 5 ≤ ('{' :: rest0).length + 1 := by
    rw [← hrest]
    simp [mkStudentBody]
  have hp := parseVal_mkStudentBody_ge (('{' :: rest0).length + 1) N E D T
    hf hN hE hD1 hD
  rw [hrest] at hp
  rw [hrest, decodeChars_cons '{' rest0 (by decide), hp]
  have hk1 : String.mk ['n', 'a', 'm', 'e'] = "name" := rfl
  have hk2 : String.mk ['e', 'm', 'a', 'i', 'l'] = "email" := rfl
  have hk3 : String.mk ['a', 'g', 'e'] = "age" := rfl
  simp [studentJson, jsonToStudent, assignFields, setField, zeroStudent,
    hk1, hk2, hk3]

/-- C10: the handler decodes only the first JSON value of the request
body. For every body that is a student JSON object (canonical
serialization, any plain name and email, any digit-run age) followed by
arbitrary trailing bytes, the trailing bytes are ignored: decoding
succeeds with exactly the object's student, and when that student passes
validation the handler answers 201 — the body is not rejected as a
decode failure. -/
theorem decoder_ignores_trailing (store : List Student) (N E D T : List Char)
    (hN : ∀ c ∈ N, c ≠ '"' ∧ c ≠ '\\')
    (hE : ∀ c ∈ E, c ≠ '"' ∧ c ≠ '\\')
    (hD1 : D ≠ []) (hD : ∀ c ∈ D, c.isDigit = true) :
    decodeStudent (String.mk (mkStudentBody N E D ++ T)) =
      DecodeOutcome.ok
        (Student.mk (String.mk N) (String.mk E) (digitsVal D : Int)) ∧
    (validateStudent
        (Student.mk (String.mk N) (String.mk E) (digitsVal D : Int)) = [] →
      studentNew store (String.mk (mkStudentBody N E D ++ T)) =
        ([(201, successBody)], store)) := by
  have hdec : decodeStudent (String.mk (mkStudentBody N E D ++ T)) =
      DecodeOutcome.ok
        (Student.mk (String.mk N) (String.mk E) (digitsVal D : Int)) := by
    unfold decodeStudent
    have : (String.mk (mkStudentBody N E D ++ T)).toList =
        mkStudentBody N E D ++ T := rfl
    rw [this]
    exact decodeChars_mkStudentBody N E D T hN hE hD1 hD
  refine ⟨hdec, fun hval => ?_⟩
  unfold studentNew
  rw [hdec]
  simp [hval]

/-- Witness for C10: a concrete valid student object followed by the
trailing bytes "garbage" still decodes to the object's student and is
answered 201. -/
theorem decoder_ignores_trailing_holds :
    (∀ c ∈ ['b', 'o', 'b'], c ≠ '"' ∧ c ≠ '\\') ∧
    (∀ c ∈ ['b', '@', 'm', '.', 'c', 'o'], c ≠ '"' ∧ c ≠ '\\') ∧
    (['2', '1'] : List Char) ≠ [] ∧
    (∀ c ∈ ['2', '1'], c.isDigit = true) ∧
    (decodeStudent (String.mk
        (mkStudentBody ['b', 'o', 'b'] ['b', '@', 'm', '.', 'c', 'o']
          ['2', '1'] ++ "garbage".toList)) =
      DecodeOutcome.ok
        (Student.mk (String.mk ['b', 'o', 'b'])
          (String.mk ['b', '@', 'm', '.', 'c', 'o'])
          (digitsVal ['2', '1'] : Int)) ∧
    (validateStudent
        (Student.mk (String.mk ['b', 'o', 'b'])
          (String.mk ['b', '@', 'm', '.', 'c', 'o'])
          (digitsVal ['2', '1'] : Int)) = [] →
      studentNew [] (String.mk
        (mkStudentBody ['b', 'o', 'b'] ['b', '@', 'm', '.', 'c', 'o']
          ['2', '1'] ++ "garbage".toList)) =
        ([(201, successBody)], []))) :=
  ⟨by decide, by decide, by decide, by decide,
    decoder_ignores_trailing [] ['b', 'o', 'b'] ['b', '@', 'm', '.', 'c', 'o']
      ['2', '1'] "garbage".toList (by decide) (by decide) (by decide)
      (by decide)⟩
